import Mathlib

/-
Verification of the library-linking, gas-limit, factory-construction and
named-signer helpers of src/internal/helpers.ts.

Hex strings (bytecode, addresses) are modelled as lists of characters, so
that the character-surgery done by linkBytecode (JavaScript substr
concatenation) is exact.  JavaScript objects used as string-keyed maps are
modelled as insertion-ordered association lists; property lookup is first
match.  Errors thrown by the TypeScript code become constructors of explicit
error types carrying the data from which the thrown message is built.
-/

/-- Slot inside bytecode where the address of a library must be written;
start and length are byte offsets as declared in the artifact link-reference
map (JS objects have fields start and length). -/
structure LinkRef where
  start : Nat
  length : Nat
deriving DecidableEq

/-- Link-reference map of an artifact: sourceName to libraryName to the list
of slots, as an insertion-ordered association list. -/
abbrev LinkRefs := List (String × List (String × List LinkRef))

/-- One entry of the ABI of a contract.  The field named type is the JS type
tag (for example the string function); name stands for all the other fields
that the spread in addGasToAbiMethodsIfNecessary copies unchanged; gas is
the per-call gas limit field, absent until the gas pass adds it. -/
structure AbiEntry where
  type : String
  name : String
  gas : Option (List Char)
deriving DecidableEq

/-- Compiled-contract artifact, the fields of hardhat Artifact that
helpers.ts reads. -/
structure Artifact where
  contractName : String
  sourceName : String
  abi : List AbiEntry
  bytecode : List Char
  linkReferences : LinkRefs
deriving DecidableEq

/-- Resolved link: interface Link of helpers.ts. -/
structure Link where
  sourceName : String
  libraryName : String
  address : List Char
deriving DecidableEq

/-- Property lookup on a JS object modelled as an association list: the
value at the first matching key. -/
def lookupEntry {α : Type} (m : List (String × α)) (k : String) : Option α :=
  (m.find? (fun p => p.1 == k)).map Prod.snd

/-- Double lookup artifact.linkReferences[sourceName][libraryName]; none
models the TypeError a missing property would raise in JS. -/
def lookupRefs (m : LinkRefs) (sourceName libraryName : String) : Option (List LinkRef) :=
  (lookupEntry m sourceName).bind (fun inner => lookupEntry inner libraryName)

/-- One substr splice of linkBytecode:
bytecode.substr(0, 2 + start * 2) + address.substr(2)
+ bytecode.substr(2 + (start + length) * 2). -/
def patchOccurrence (bytecode address : List Char) (r : LinkRef) : List Char :=
  bytecode.take (2 + r.start * 2) ++ address.drop 2 ++
    bytecode.drop (2 + (r.start + r.length) * 2)

/-- linkBytecode of helpers.ts: fold every slot of every resolved link over
the bytecode; none models the TypeError raised when a link names a pair
absent from the link-reference map. -/
def linkBytecode (artifact : Artifact) (libraries : List Link) : Option (List Char) :=
  libraries.foldlM
    (fun bytecode l =>
      (lookupRefs artifact.linkReferences l.sourceName l.libraryName).map
        (fun refs => refs.foldl (fun b r => patchOccurrence b l.address r) bytecode))
    artifact.bytecode

/-- Flattened list of (address, slot) pairs patched by linkBytecode, in
patch order. -/
def allOccs (m : LinkRefs) (libraries : List Link) : List (List Char × LinkRef) :=
  libraries.flatMap
    (fun l => ((lookupRefs m l.sourceName l.libraryName).getD []).map
      (fun r => (l.address, r)))

/-- Fold of single-slot patches over the bytecode. -/
def applyOccs (bc : List Char) (occs : List (List Char × LinkRef)) : List Char :=
  occs.foldl (fun b o => patchOccurrence b o.1 o.2) bc

/-- Two slots occupy disjoint byte ranges. -/
def disjointRefs (r1 r2 : LinkRef) : Prop :=
  r1.start + r1.length ≤ r2.start ∨ r2.start + r2.length ≤ r1.start

instance (r1 r2 : LinkRef) : Decidable (disjointRefs r1 r2) := by
  unfold disjointRefs
  infer_instance

/-- Fully qualified library name, written sourceName:libName in helpers.ts. -/
def fqn (sourceName libName : String) : String :=
  sourceName ++ ":" ++ libName

/-- Errors thrown by collectLibrariesAndLink and linkBytecode, carrying the
data the thrown message is built from. -/
inductive LinkError where
  | invalidAddress (contractName linkedLibraryName : String) (address : List Char)
  | unknownLibrary (contractName linkedLibraryName : String) (neededFQNs : List String)
  | ambiguousLibraryName (contractName linkedLibraryName : String) (candidateFQNs : List String)
  | duplicateLinkEntry (libraryName libraryFQN : String)
  | missingLibraries (contractName : String) (missingFQNs : List String)
  | brokenLinkReferences
deriving DecidableEq

/-- Hexadecimal digit test on a character, either case. -/
def isHexDigitChar (c : Char) : Bool :=
  c.isDigit || (decide ('a' ≤ c) && decide (c ≤ 'f')) || (decide ('A' ≤ c) && decide (c ≤ 'F'))

/-- Modelled from the spec: utils.isAddress of the external ethers library,
which helpers.ts calls to test that a binding value is a syntactically valid
account address: the two characters 0x followed by exactly 40 hexadecimal
digits. -/
def isAddress (address : List Char) : Bool :=
  match address with
  | '0' :: 'x' :: digits => digits.length == 40 && digits.all isHexDigitChar
  | _ => false

/-- Needed libraries of an artifact: the (sourceName, libName) pairs pushed
by the double loop over Object.entries(artifact.linkReferences). -/
def neededLibrariesOf (m : LinkRefs) : List (String × String) :=
  m.flatMap (fun entry => entry.2.map (fun inner => (entry.1, inner.1)))

/-- Body of the for-loop of collectLibrariesAndLink over one
(linkedLibraryName, linkedLibraryAddress) entry of the user libraries
object: validate the address, match the name against the needed libraries,
reject unknown, ambiguous and duplicate entries, otherwise append the
resolved link to the linksToApply map (an insertion-ordered association
list keyed by fully qualified name, as a JS Map). -/
def resolveBinding (contractName : String) (neededLibraries : List (String × String))
    (linksToApply : List (String × Link)) (binding : String × List Char) :
    Except LinkError (List (String × Link)) :=
  if isAddress binding.2 = false then
    .error (.invalidAddress contractName binding.1 binding.2)
  else
    match neededLibraries.filter
        (fun lib => lib.2 == binding.1 || fqn lib.1 lib.2 == binding.1) with
    | [] =>
      .error (.unknownLibrary contractName binding.1
        (neededLibraries.map (fun lib => fqn lib.1 lib.2)))
    | [neededLibrary] =>
      if linksToApply.any (fun p => p.1 == fqn neededLibrary.1 neededLibrary.2) then
        .error (.duplicateLinkEntry neededLibrary.2 (fqn neededLibrary.1 neededLibrary.2))
      else
        .ok (linksToApply ++ [(fqn neededLibrary.1 neededLibrary.2,
          ⟨neededLibrary.1, neededLibrary.2, binding.2⟩)])
    | lib1 :: lib2 :: more =>
      .error (.ambiguousLibraryName contractName binding.1
        ((lib1 :: lib2 :: more).map (fun lib => fqn lib.1 lib.2)))

/-- collectLibrariesAndLink of helpers.ts: enumerate the needed libraries,
resolve each user binding in order, check completeness, then patch the
bytecode.  The user libraries object is its ordered (identifier, address)
entry list. -/
def collectLibrariesAndLink (artifact : Artifact) (libraries : List (String × List Char)) :
    Except LinkError (List Char) :=
  match libraries.foldlM
      (resolveBinding artifact.contractName (neededLibrariesOf artifact.linkReferences))
      [] with
  | .error e => .error e
  | .ok linksToApply =>
    if linksToApply.length < (neededLibrariesOf artifact.linkReferences).length then
      .error (.missingLibraries artifact.contractName
        (((neededLibrariesOf artifact.linkReferences).map (fun lib => fqn lib.1 lib.2)).filter
          (fun f => !(linksToApply.any (fun p => p.1 == f)))))
    else
      match linkBytecode artifact (linksToApply.map Prod.snd) with
      | some bc => .ok bc
      | none => .error .brokenLinkReferences

/-- Well-formedness that JS objects guarantee for the link-reference map:
keys of an object are distinct. -/
def WFLinkRefs (m : LinkRefs) : Prop :=
  (m.map Prod.fst).Nodup ∧ ∀ entry ∈ m, (entry.2.map Prod.fst).Nodup

instance (m : LinkRefs) : Decidable (WFLinkRefs m) := by
  unfold WFLinkRefs
  infer_instance

/-- Gas entry of the network configuration: the string auto, undefined, or a
fixed numeric amount. -/
inductive GasSetting where
  | auto
  | undef
  | fixed (amount : Nat)
deriving DecidableEq

/-- Character of one hexadecimal digit, lower case. -/
def hexDigitChar (n : Nat) : Char :=
  if n < 10 then Char.ofNat (48 + n) else Char.ofNat (87 + n)

/-- Hexadecimal digits of a natural number, most significant first. -/
def toHexDigits (n : Nat) : List Char :=
  if _h : n < 16 then [hexDigitChar n]
  else toHexDigits (n / 16) ++ [hexDigitChar (n % 16)]
decreasing_by exact Nat.div_lt_self (by omega) (by omega)

/-- Modelled from the spec: toHexString of an ethers BigNumber (external
library), the 0x-prefixed hexadecimal rendering of a number. -/
def toHexString (value : Nat) : List Char :=
  '0' :: 'x' :: toHexDigits value

/-- Modelled from the spec: BigNumber.from(n).sub(m).toHexString() of the
external ethers library; ethers raises on hexlifying a negative value,
modelled as none. -/
def bigNumberSubToHexString (n m : Nat) : Option (List Char) :=
  if n < m then none else some (toHexString (n - m))

/-- addGasToAbiMethodsIfNecessary of helpers.ts: with a fixed network gas
amount, push every ABI entry onto a fresh array, giving entries of type
function a gas field of toHexString(amount - 1000000) through an object
spread; with gas auto or undefined return the ABI as is. -/
def addGasToAbiMethodsIfNecessary (networkConfigGas : GasSetting) (abi : List AbiEntry) :
    Option (List AbiEntry) :=
  match networkConfigGas with
  | .auto => some abi
  | .undef => some abi
  | .fixed amount =>
    (bigNumberSubToHexString amount 1000000).map
      (fun gasLimit =>
        abi.foldl
          (fun modifiedAbi abiElement =>
            if abiElement.type != "function" then modifiedAbi ++ [abiElement]
            else modifiedAbi ++ [{ abiElement with gas := some gasLimit }])
          [])

/-- Result of new ContractFactory(abiWithAddedGas, bytecode, signer),
modelled by the abi and bytecode it is built from; the signer argument is
external and does not change them. -/
structure ContractFactory where
  abi : List AbiEntry
  bytecode : List Char
deriving DecidableEq

/-- Errors of factory construction. -/
inductive FactoryError where
  | abstractContract (contractName : String)
  | linkingFailed (e : LinkError)
  | gasHexFailed
deriving DecidableEq

/-- getContractFactoryByAbiAndBytecode of helpers.ts: signer resolution is
external; the factory is built from the gas-adjusted ABI and the given
bytecode, with no check on the bytecode. -/
def getContractFactoryByAbiAndBytecode (networkConfigGas : GasSetting)
    (abi : List AbiEntry) (bytecode : List Char) : Except FactoryError ContractFactory :=
  match addGasToAbiMethodsIfNecessary networkConfigGas abi with
  | some abiWithAddedGas => .ok ⟨abiWithAddedGas, bytecode⟩
  | none => .error .gasHexFailed

/-- getContractFactoryByName of helpers.ts: the artifact is a parameter
because artifact lookup by name is delegated to an external store; the
libraries come from the FactoryOptions argument.  An artifact whose
bytecode is exactly 0x is rejected as abstract before linking. -/
def getContractFactoryByName (networkConfigGas : GasSetting) (artifact : Artifact)
    (libraries : List (String × List Char)) : Except FactoryError ContractFactory :=
  if artifact.bytecode = ['0', 'x'] then
    .error (.abstractContract artifact.contractName)
  else
    match collectLibrariesAndLink artifact libraries with
    | .error e => .error (.linkingFailed e)
    | .ok linkedBytecode =>
      getContractFactoryByAbiAndBytecode networkConfigGas artifact.abi linkedBytecode

/-- Signer handle bound to one address. -/
structure SignerWithAddress where
  address : String
deriving DecidableEq

/-- Errors thrown by getNamedSignerOrNull. -/
inductive NamedSignerError where
  | noDeploymentPluginInstalled
  | noAccountNamed (name : String)
deriving DecidableEq

/-- getNamedSignerOrNull of helpers.ts.  The named-account registry of the
deployment plugin is an optional association list (none when the plugin is
absent); looking up a missing name, or a name bound to the empty string,
makes the JS value falsy and raises the no-account error.  The external
signer construction is the parameter getSignerFor; a falsy signer yields
ok none. -/
def getNamedSignerOrNull (getNamedAccounts : Option (List (String × String)))
    (getSignerFor : String → Option SignerWithAddress) (name : String) :
    Except NamedSignerError (Option SignerWithAddress) :=
  match getNamedAccounts with
  | none => .error .noDeploymentPluginInstalled
  | some namedAccounts =>
    match lookupEntry namedAccounts name with
    | none => .error (.noAccountNamed name)
    | some address =>
      if address = "" then .error (.noAccountNamed name)
      else
        match getSignerFor address with
        | some signer => .ok (some signer)
        | none => .ok none

/-- Sample address, 0x followed by 40 hex characters a. -/
def sampleAddrA : List Char :=
  '0' :: 'x' :: List.replicate 40 'a'

/-- Sample address, 0x followed by 40 hex characters b. -/
def sampleAddrB : List Char :=
  '0' :: 'x' :: List.replicate 40 'b'

/-- Sample artifact with a single library slot of 20 bytes at byte offset 1. -/
def sampleArtifact : Artifact :=
  ⟨"C", "contracts/A.sol", [], '0' :: 'x' :: List.replicate 44 '0',
    [("contracts/A.sol", [("Lib", [⟨1, 20⟩])])]⟩

/-- Sample resolved link for sampleArtifact. -/
def sampleLink : Link :=
  ⟨"contracts/A.sol", "Lib", sampleAddrA⟩

/-- Sample artifact needing the two libraries A and B of one source file. -/
def sampleArtifactAB : Artifact :=
  ⟨"C2", "s.sol", [], '0' :: 'x' :: List.replicate 88 '0',
    [("s.sol", [("A", [⟨1, 20⟩]), ("B", [⟨22, 20⟩])])]⟩

/-- Bytecode of sampleArtifactAB after linking A to sampleAddrA and B to
sampleAddrB. -/
def sampleLinkedAB : List Char :=
  '0' :: 'x' :: (List.replicate 2 '0' ++ List.replicate 40 'a' ++ List.replicate 2 '0' ++
    List.replicate 40 'b' ++ List.replicate 4 '0')

/-- Sample artifact where the bare name Lib is ambiguous between two source
files. -/
def sampleArtifactAmb : Artifact :=
  ⟨"C3", "File1.sol", [], '0' :: 'x' :: List.replicate 88 '0',
    [("File1.sol", [("Lib", [⟨1, 20⟩])]), ("File2.sol", [("Lib", [⟨22, 20⟩])])]⟩

/-- Sample artifact needing the single library File1.sol:Lib. -/
def sampleArtifactDup : Artifact :=
  ⟨"C4", "File1.sol", [], '0' :: 'x' :: List.replicate 44 '0',
    [("File1.sol", [("Lib", [⟨1, 20⟩])])]⟩

/-- Sample artifact with an empty link-reference map. -/
def sampleEmptyArtifact : Artifact :=
  ⟨"C7", "s.sol", [], ['0', 'x', 'a', 'b'], []⟩

/-- Sample ABI with one function entry and one event entry. -/
def sampleAbi : List AbiEntry :=
  [⟨"function", "doSomething", none⟩, ⟨"event", "SomethingDone", none⟩]

/-- Sample abstract-contract artifact: its bytecode is exactly 0x. -/
def sampleAbstractArtifact : Artifact :=
  ⟨"Abs", "s.sol", [], ['0', 'x'], []⟩

lemma length_take_of_le {l : List Char} {n : Nat} (h : n ≤ l.length) :
    (l.take n).length = n := by
  simp [List.length_take]
  omega

lemma length_patchOccurrence (bc addr : List Char) (r : LinkRef)
    (hb : 2 + (r.start + r.length) * 2 ≤ bc.length)
    (ha : addr.length = 2 + 2 * r.length) :
    (patchOccurrence bc addr r).length = bc.length := by
  simp [patchOccurrence, List.length_append, List.length_take, List.length_drop, ha]
  omega

lemma getElem?_patchOccurrence_left (bc addr : List Char) (r : LinkRef) (p : Nat)
    (hb : 2 + (r.start + r.length) * 2 ≤ bc.length)
    (h1 : p < 2 + r.start * 2) :
    (patchOccurrence bc addr r)[p]? = bc[p]? := by
  have hs2 : (bc.take (2 + r.start * 2)).length = 2 + r.start * 2 := by
    apply length_take_of_le
    omega
  rw [patchOccurrence, List.append_assoc, List.getElem?_append, hs2]
  simp only [h1, if_pos]
  rw [List.getElem?_take]
  simp [h1]

lemma getElem?_patchOccurrence_mid (bc addr : List Char) (r : LinkRef) (p : Nat)
    (hb : 2 + (r.start + r.length) * 2 ≤ bc.length)
    (ha : addr.length = 2 + 2 * r.length)
    (h1 : 2 + r.start * 2 ≤ p)
    (h2 : p < 2 + (r.start + r.length) * 2) :
    (patchOccurrence bc addr r)[p]? = addr[2 + (p - (2 + r.start * 2))]? := by
  have hs2 : (bc.take (2 + r.start * 2)).length = 2 + r.start * 2 := by
    apply length_take_of_le
    omega
  have hmid : (addr.drop 2).length = 2 * r.length := by
    simp [List.length_drop, ha]
  rw [patchOccurrence, List.append_assoc, List.getElem?_append, hs2]
  have h1' : ¬ p < 2 + r.start * 2 := by omega
  simp only [h1', if_neg, if_false]
  rw [List.getElem?_append]
  rw [hmid]
  have h2' : p - (2 + r.start * 2) < 2 * r.length := by omega
  simp only [h2', if_pos]
  rw [List.getElem?_drop]

lemma getElem?_patchOccurrence_right (bc addr : List Char) (r : LinkRef) (p : Nat)
    (hb : 2 + (r.start + r.length) * 2 ≤ bc.length)
    (ha : addr.length = 2 + 2 * r.length)
    (h3 : 2 + (r.start + r.length) * 2 ≤ p) :
    (patchOccurrence bc addr r)[p]? = bc[p]? := by
  have hs2 : (bc.take (2 + r.start * 2)).length = 2 + r.start * 2 := by
    apply length_take_of_le
    omega
  have hmid : (addr.drop 2).length = 2 * r.length := by
    simp [List.length_drop, ha]
  rw [patchOccurrence, List.append_assoc, List.getElem?_append, hs2]
  have h1' : ¬ p < 2 + r.start * 2 := by omega
  simp only [h1', if_neg, if_false]
  rw [List.getElem?_append]
  rw [hmid]
  have h2' : ¬ p - (2 + r.start * 2) < 2 * r.length := by omega
  simp only [h2', if_neg, if_false]
  rw [List.getElem?_drop]
  congr 1
  omega

lemma applyOccs_append (bc : List Char) (o1 o2 : List (List Char × LinkRef)) :
    applyOccs bc (o1 ++ o2) = applyOccs (applyOccs bc o1) o2 := by
  simp [applyOccs, List.foldl_append]

lemma linkBytecode_eq_applyOccs (artifact : Artifact) (libraries : List Link)
    (h : ∀ l ∈ libraries,
      (lookupRefs artifact.linkReferences l.sourceName l.libraryName).isSome = true) :
    linkBytecode artifact libraries =
      some (applyOccs artifact.bytecode (allOccs artifact.linkReferences libraries)) := by
  unfold linkBytecode
  generalize artifact.bytecode = bc
  induction libraries generalizing bc with
  | nil => simp [allOccs, applyOccs]
  | cons l rest ih =>
    obtain ⟨refs, hrefs⟩ :=
      Option.isSome_iff_exists.mp (h l (List.mem_cons_self l rest))
    have hrest : ∀ x ∈ rest,
        (lookupRefs artifact.linkReferences x.sourceName x.libraryName).isSome = true :=
      fun x hx => h x (List.mem_cons_of_mem l hx)
    rw [List.foldlM_cons, hrefs]
    simp only [Option.map_some, Option.some_bind, Option.map_some', Option.bind_some]
    have step : ∀ (x : List Char) (f : List Char → Option (List Char)), (some x >>= f) = f x :=
      fun x f => rfl
    rw [step]
    rw [ih hrest]
    congr 1
    rw [show allOccs artifact.linkReferences (l :: rest)
        = (refs.map (fun r => (l.address, r))) ++ allOccs artifact.linkReferences rest by
      simp [allOccs, hrefs]]
    rw [applyOccs_append]
    congr 1
    simp [applyOccs, List.foldl_map]

lemma applyOccs_spec (occs : List (List Char × LinkRef)) : ∀ bc : List Char,
    (∀ o ∈ occs, o.1.length = 2 + 2 * o.2.length) →
    (∀ o ∈ occs, 2 + (o.2.start + o.2.length) * 2 ≤ bc.length) →
    occs.Pairwise (fun a b => disjointRefs a.2 b.2) →
    (applyOccs bc occs).length = bc.length ∧
    (∀ o ∈ occs, ∀ i, i < 2 * o.2.length →
      (applyOccs bc occs)[2 + o.2.start * 2 + i]? = o.1[2 + i]?) ∧
    (∀ p : Nat,
      (∀ o ∈ occs, p < 2 + o.2.start * 2 ∨ 2 + (o.2.start + o.2.length) * 2 ≤ p) →
      (applyOccs bc occs)[p]? = bc[p]?) := by
  induction occs with
  | nil =>
    intro bc _ _ _
    refine ⟨rfl, ?_, ?_⟩
    · intro o ho
      exact absurd ho (List.not_mem_nil o)
    · intro p _
      rfl
  | cons o rest ih =>
    intro bc ha hb hd
    have hao : o.1.length = 2 + 2 * o.2.length := ha o (List.mem_cons_self o rest)
    have hbo : 2 + (o.2.start + o.2.length) * 2 ≤ bc.length :=
      hb o (List.mem_cons_self o rest)
    have hlen : (patchOccurrence bc o.1 o.2).length = bc.length :=
      length_patchOccurrence bc o.1 o.2 hbo hao
    have hdrest : rest.Pairwise (fun a b => disjointRefs a.2 b.2) :=
      (List.pairwise_cons.mp hd).2
    have hdhead : ∀ x ∈ rest, disjointRefs o.2 x.2 :=
      (List.pairwise_cons.mp hd).1
    have harest : ∀ x ∈ rest, x.1.length = 2 + 2 * x.2.length :=
      fun x hx => ha x (List.mem_cons_of_mem o hx)
    have hbrest : ∀ x ∈ rest,
        2 + (x.2.start + x.2.length) * 2 ≤ (patchOccurrence bc o.1 o.2).length := by
      intro x hx
      rw [hlen]
      exact hb x (List.mem_cons_of_mem o hx)
    obtain ⟨ihlen, ihmem, ihout⟩ := ih (patchOccurrence bc o.1 o.2) harest hbrest hdrest
    have hstep : applyOccs bc (o :: rest) = applyOccs (patchOccurrence bc o.1 o.2) rest := rfl
    refine ⟨?_, ?_, ?_⟩
    · rw [hstep, ihlen, hlen]
    · intro x hx i hi
      rcases List.mem_cons.mp hx with hx | hx
      · subst hx
        rw [hstep]
        have houtside : ∀ y ∈ rest,
            2 + x.2.start * 2 + i < 2 + y.2.start * 2 ∨
            2 + (y.2.start + y.2.length) * 2 ≤ 2 + x.2.start * 2 + i := by
          intro y hy
          rcases hdhead y hy with hcase | hcase
          · left
            omega
          · right
            omega
        have hmid := getElem?_patchOccurrence_mid bc x.1 x.2 (2 + x.2.start * 2 + i)
          hbo hao (by omega) (by omega)
        rw [ihout _ houtside, hmid]
        congr 1
        omega
      · rw [hstep]
        exact ihmem x hx i hi
    · intro p hp
      rw [hstep, ihout p (fun y hy => hp y (List.mem_cons_of_mem o hy))]
      rcases hp o (List.mem_cons_self o rest) with hcase | hcase
      · exact getElem?_patchOccurrence_left bc o.1 o.2 p hbo hcase
      · exact getElem?_patchOccurrence_right bc o.1 o.2 p hbo hao hcase

lemma mem_allOccs {m : LinkRefs} {libraries : List Link}
    {o : List Char × LinkRef} :
    o ∈ allOccs m libraries ↔
      ∃ l ∈ libraries,
        ∃ r ∈ (lookupRefs m l.sourceName l.libraryName).getD [],
          o = (l.address, r) := by
  simp only [allOccs, List.mem_flatMap, List.mem_map]
  constructor
  · rintro ⟨l, hl, r, hr, rfl⟩
    exact ⟨l, hl, r, hr, rfl⟩
  · rintro ⟨l, hl, r, hr, rfl⟩
    exact ⟨l, hl, r, hr, rfl⟩

/-- C1.  With every resolved link declared in the link-reference map, every
address a 0x-prefixed 40-hex-character string, every declared slot 20 bytes
long, lying inside the bytecode and pairwise disjoint, linkBytecode returns
a string of the same length in which the character range from
2 + start * 2 up to 2 + (start + length) * 2 of every declared slot holds the
40 address characters (leading 0x stripped) and every character outside the
patched ranges is the character of the input bytecode. -/
theorem linkBytecode_patches_declared_ranges
    (artifact : Artifact) (libraries : List Link)
    (hdecl : ∀ l ∈ libraries,
      (lookupRefs artifact.linkReferences l.sourceName l.libraryName).isSome = true)
    (haddr : ∀ l ∈ libraries, l.address.length = 42)
    (hlen : ∀ l ∈ libraries,
      ∀ r ∈ (lookupRefs artifact.linkReferences l.sourceName l.libraryName).getD [],
        r.length = 20)
    (hbound : ∀ l ∈ libraries,
      ∀ r ∈ (lookupRefs artifact.linkReferences l.sourceName l.libraryName).getD [],
        2 + (r.start + r.length) * 2 ≤ artifact.bytecode.length)
    (hdisj : (allOccs artifact.linkReferences libraries).Pairwise
      (fun a b => disjointRefs a.2 b.2)) :
    ∃ out, linkBytecode artifact libraries = some out ∧
      out.length = artifact.bytecode.length ∧
      (∀ l ∈ libraries,
        ∀ r ∈ (lookupRefs artifact.linkReferences l.sourceName l.libraryName).getD [],
          ∀ i, i < 40 → out[2 + r.start * 2 + i]? = l.address[2 + i]?) ∧
      (∀ p : Nat,
        (∀ l ∈ libraries,
          ∀ r ∈ (lookupRefs artifact.linkReferences l.sourceName l.libraryName).getD [],
            p < 2 + r.start * 2 ∨ 2 + (r.start + r.length) * 2 ≤ p) →
        out[p]? = artifact.bytecode[p]?) := by
  have ha : ∀ o ∈ allOccs artifact.linkReferences libraries,
      o.1.length = 2 + 2 * o.2.length := by
    intro o ho
    obtain ⟨l, hl, r, hr, rfl⟩ := mem_allOccs.mp ho
    have := haddr l hl
    have := hlen l hl r hr
    simp only
    omega
  have hb : ∀ o ∈ allOccs artifact.linkReferences libraries,
      2 + (o.2.start + o.2.length) * 2 ≤ artifact.bytecode.length := by
    intro o ho
    obtain ⟨l, hl, r, hr, rfl⟩ := mem_allOccs.mp ho
    exact hbound l hl r hr
  obtain ⟨hlen', hmem', hout'⟩ :=
    applyOccs_spec (allOccs artifact.linkReferences libraries) artifact.bytecode ha hb hdisj
  refine ⟨applyOccs artifact.bytecode (allOccs artifact.linkReferences libraries),
    linkBytecode_eq_applyOccs artifact libraries hdecl, hlen', ?_, ?_⟩
  · intro l hl r hr i hi
    have ho : (l.address, r) ∈ allOccs artifact.linkReferences libraries :=
      mem_allOccs.mpr ⟨l, hl, r, hr, rfl⟩
    have h40 : (2 : Nat) * r.length = 40 := by
      have := hlen l hl r hr
      omega
    exact hmem' (l.address, r) ho i (show i < 2 * r.length by omega)
  · intro p hp
    apply hout'
    intro o ho
    obtain ⟨l, hl, r, hr, rfl⟩ := mem_allOccs.mp ho
    exact hp l hl r hr

@[simp] lemma exceptError_bind {ε α β : Type} (e : ε) (f : α → Except ε β) :
    (Except.error e >>= f) = Except.error e := rfl

@[simp] lemma exceptOk_bind {ε α β : Type} (a : α) (f : α → Except ε β) :
    (Except.ok a >>= f) = f a := rfl

/-- Witness for C1 on a one-slot artifact and one resolved link. -/
theorem linkBytecode_patches_declared_ranges_witness :
    ((∀ l ∈ [sampleLink],
        (lookupRefs sampleArtifact.linkReferences l.sourceName l.libraryName).isSome = true) ∧
      (∀ l ∈ [sampleLink], l.address.length = 42) ∧
      (∀ l ∈ [sampleLink],
        ∀ r ∈ (lookupRefs sampleArtifact.linkReferences l.sourceName l.libraryName).getD [],
          r.length = 20) ∧
      (∀ l ∈ [sampleLink],
        ∀ r ∈ (lookupRefs sampleArtifact.linkReferences l.sourceName l.libraryName).getD [],
          2 + (r.start + r.length) * 2 ≤ sampleArtifact.bytecode.length) ∧
      (allOccs sampleArtifact.linkReferences [sampleLink]).Pairwise
        (fun a b => disjointRefs a.2 b.2)) ∧
    (∃ out, linkBytecode sampleArtifact [sampleLink] = some out ∧
      out.length = sampleArtifact.bytecode.length ∧
      (∀ l ∈ [sampleLink],
        ∀ r ∈ (lookupRefs sampleArtifact.linkReferences l.sourceName l.libraryName).getD [],
          ∀ i, i < 40 → out[2 + r.start * 2 + i]? = l.address[2 + i]?) ∧
      (∀ p : Nat,
        (∀ l ∈ [sampleLink],
          ∀ r ∈ (lookupRefs sampleArtifact.linkReferences l.sourceName l.libraryName).getD [],
            p < 2 + r.start * 2 ∨ 2 + (r.start + r.length) * 2 ≤ p) →
        out[p]? = sampleArtifact.bytecode[p]?)) :=
  ⟨⟨by decide, by decide, by decide, by decide, by decide⟩,
    linkBytecode_patches_declared_ranges sampleArtifact [sampleLink]
      (by decide) (by decide) (by decide) (by decide) (by decide)⟩

/-- C7.  An artifact with an empty link-reference map linked with an empty
binding map returns its bytecode unchanged. -/
theorem collectLibrariesAndLink_noop (artifact : Artifact)
    (h : artifact.linkReferences = []) :
    collectLibrariesAndLink artifact [] = .ok artifact.bytecode := by
  simp [collectLibrariesAndLink, neededLibrariesOf, h, linkBytecode, pure, Except.pure]

/-- Witness for C7. -/
theorem collectLibrariesAndLink_noop_witness :
    sampleEmptyArtifact.linkReferences = [] ∧
    collectLibrariesAndLink sampleEmptyArtifact [] = .ok sampleEmptyArtifact.bytecode :=
  ⟨rfl, collectLibrariesAndLink_noop sampleEmptyArtifact rfl⟩

lemma collect_error_of_fold_error (artifact : Artifact)
    (libraries : List (String × List Char)) (e : LinkError)
    (h : libraries.foldlM
      (resolveBinding artifact.contractName (neededLibrariesOf artifact.linkReferences))
      [] = .error e) :
    collectLibrariesAndLink artifact libraries = .error e := by
  unfold collectLibrariesAndLink
  rw [h]

lemma foldlM_resolve_reaches (cn : String) (needed : List (String × String))
    (pre post : List (String × List Char)) (b : String × List Char)
    (links : List (String × Link)) (e : LinkError)
    (hfold : pre.foldlM (resolveBinding cn needed) [] = .ok links)
    (hstep : resolveBinding cn needed links b = .error e) :
    (pre ++ b :: post).foldlM (resolveBinding cn needed) [] = .error e := by
  rw [List.foldlM_append, hfold, exceptOk_bind, List.foldlM_cons, hstep, exceptError_bind]

/-- C2.  When every provided binding resolves but fewer links were resolved
than libraries are needed, linking fails with the missing-libraries error,
whose list holds exactly the needed fully qualified names no resolved link
covers. -/
theorem collectLibrariesAndLink_missing (artifact : Artifact)
    (libraries : List (String × List Char)) (linksToApply : List (String × Link))
    (hfold : libraries.foldlM
      (resolveBinding artifact.contractName (neededLibrariesOf artifact.linkReferences))
      [] = .ok linksToApply)
    (hlt : linksToApply.length < (neededLibrariesOf artifact.linkReferences).length) :
    ∃ missing,
      collectLibrariesAndLink artifact libraries
        = .error (.missingLibraries artifact.contractName missing) ∧
      ∀ f, f ∈ missing ↔
        (f ∈ (neededLibrariesOf artifact.linkReferences).map (fun lib => fqn lib.1 lib.2) ∧
          ∀ p ∈ linksToApply, p.1 ≠ f) := by
  refine ⟨((neededLibrariesOf artifact.linkReferences).map (fun lib => fqn lib.1 lib.2)).filter
      (fun f => !(linksToApply.any (fun p => p.1 == f))), ?_, ?_⟩
  · unfold collectLibrariesAndLink
    rw [hfold]
    simp only [hlt, if_pos]
  · intro f
    rw [List.mem_filter]
    simp [List.any_eq_false]

/-- Witness for C2: sampleArtifactAB needs A and B, only A is bound, and the
error lists exactly s.sol:B. -/
theorem collectLibrariesAndLink_missing_witness :
    ([("A", sampleAddrA)].foldlM
      (resolveBinding sampleArtifactAB.contractName
        (neededLibrariesOf sampleArtifactAB.linkReferences)) []
      = .ok [("s.sol:A", ⟨"s.sol", "A", sampleAddrA⟩)]) ∧
    ([("s.sol:A", (⟨"s.sol", "A", sampleAddrA⟩ : Link))].length
      < (neededLibrariesOf sampleArtifactAB.linkReferences).length) ∧
    (∃ missing,
      collectLibrariesAndLink sampleArtifactAB [("A", sampleAddrA)]
        = .error (.missingLibraries sampleArtifactAB.contractName missing) ∧
      ∀ f, f ∈ missing ↔
        (f ∈ (neededLibrariesOf sampleArtifactAB.linkReferences).map
            (fun lib => fqn lib.1 lib.2) ∧
          ∀ p ∈ [("s.sol:A", (⟨"s.sol", "A", sampleAddrA⟩ : Link))], p.1 ≠ f)) :=
  ⟨by rfl, by decide,
    collectLibrariesAndLink_missing sampleArtifactAB [("A", sampleAddrA)]
      [("s.sol:A", ⟨"s.sol", "A", sampleAddrA⟩)] (by rfl) (by decide)⟩

/-- C3.  A binding reached during linking whose identifier matches more than
one needed library makes linking fail with the ambiguous-name error listing
the fully qualified names of all the matches. -/
theorem collectLibrariesAndLink_ambiguous (artifact : Artifact)
    (pre post : List (String × List Char)) (binding : String × List Char)
    (linksToApply : List (String × Link))
    (hfold : pre.foldlM
      (resolveBinding artifact.contractName (neededLibrariesOf artifact.linkReferences))
      [] = .ok linksToApply)
    (haddr : isAddress binding.2 = true)
    (hmatch : 1 < ((neededLibrariesOf artifact.linkReferences).filter
      (fun lib => lib.2 == binding.1 || fqn lib.1 lib.2 == binding.1)).length) :
    collectLibrariesAndLink artifact (pre ++ binding :: post)
      = .error (.ambiguousLibraryName artifact.contractName binding.1
        (((neededLibrariesOf artifact.linkReferences).filter
          (fun lib => lib.2 == binding.1 || fqn lib.1 lib.2 == binding.1)).map
          (fun lib => fqn lib.1 lib.2))) := by
  have hstep : resolveBinding artifact.contractName
      (neededLibrariesOf artifact.linkReferences) linksToApply binding
      = .error (.ambiguousLibraryName artifact.contractName binding.1
        (((neededLibrariesOf artifact.linkReferences).filter
          (fun lib => lib.2 == binding.1 || fqn lib.1 lib.2 == binding.1)).map
          (fun lib => fqn lib.1 lib.2))) := by
    unfold resolveBinding
    rw [if_neg (by simp [haddr])]
    rcases hf : (neededLibrariesOf artifact.linkReferences).filter
        (fun lib => lib.2 == binding.1 || fqn lib.1 lib.2 == binding.1) with
      _ | ⟨lib1, _ | ⟨lib2, more⟩⟩
    · rw [hf] at hmatch
      simp at hmatch
    · rw [hf] at hmatch
      simp at hmatch
    · rw [hf]
  exact collect_error_of_fold_error artifact _ _
    (foldlM_resolve_reaches _ _ pre post binding linksToApply _ hfold hstep)

/-- Witness for C3: the bare name Lib is ambiguous for sampleArtifactAmb and
both File1.sol:Lib and File2.sol:Lib are listed. -/
theorem collectLibrariesAndLink_ambiguous_witness :
    (([] : List (String × List Char)).foldlM
      (resolveBinding sampleArtifactAmb.contractName
        (neededLibrariesOf sampleArtifactAmb.linkReferences)) []
      = .ok []) ∧
    (isAddress sampleAddrA = true) ∧
    (1 < ((neededLibrariesOf sampleArtifactAmb.linkReferences).filter
      (fun lib => lib.2 == "Lib" || fqn lib.1 lib.2 == "Lib")).length) ∧
    collectLibrariesAndLink sampleArtifactAmb ([] ++ ("Lib", sampleAddrA) :: [])
      = .error (.ambiguousLibraryName sampleArtifactAmb.contractName "Lib"
        (((neededLibrariesOf sampleArtifactAmb.linkReferences).filter
          (fun lib => lib.2 == "Lib" || fqn lib.1 lib.2 == "Lib")).map
          (fun lib => fqn lib.1 lib.2))) :=
  ⟨by rfl, by decide, by decide,
    collectLibrariesAndLink_ambiguous sampleArtifactAmb [] [] ("Lib", sampleAddrA) []
      (by rfl) (by decide) (by decide)⟩

/-- C4.  A binding reached during linking that resolves to a fully qualified
name already resolved by an earlier binding of the same call makes linking
fail with the duplicate-entry error. -/
theorem collectLibrariesAndLink_duplicate (artifact : Artifact)
    (pre post : List (String × List Char)) (binding : String × List Char)
    (linksToApply : List (String × Link)) (lib : String × String)
    (hfold : pre.foldlM
      (resolveBinding artifact.contractName (neededLibrariesOf artifact.linkReferences))
      [] = .ok linksToApply)
    (haddr : isAddress binding.2 = true)
    (hfilter : (neededLibrariesOf artifact.linkReferences).filter
      (fun l => l.2 == binding.1 || fqn l.1 l.2 == binding.1) = [lib])
    (hdup : fqn lib.1 lib.2 ∈ linksToApply.map Prod.fst) :
    collectLibrariesAndLink artifact (pre ++ binding :: post)
      = .error (.duplicateLinkEntry lib.2 (fqn lib.1 lib.2)) := by
  have hany : linksToApply.any (fun p => p.1 == fqn lib.1 lib.2) = true := by
    rw [List.any_eq_true]
    obtain ⟨p, hp, hpe⟩ := List.mem_map.mp hdup
    exact ⟨p, hp, beq_iff_eq.mpr hpe⟩
  have hstep : resolveBinding artifact.contractName
      (neededLibrariesOf artifact.linkReferences) linksToApply binding
      = .error (.duplicateLinkEntry lib.2 (fqn lib.1 lib.2)) := by
    unfold resolveBinding
    rw [if_neg (by simp [haddr])]
    rw [hfilter]
    simp only [hany, if_true]
  exact collect_error_of_fold_error artifact _ _
    (foldlM_resolve_reaches _ _ pre post binding linksToApply _ hfold hstep)

/-- Witness for C4: Lib and File1.sol:Lib given as two separate bindings for
the single needed library File1.sol:Lib. -/
theorem collectLibrariesAndLink_duplicate_witness :
    ([("Lib", sampleAddrA)].foldlM
      (resolveBinding sampleArtifactDup.contractName
        (neededLibrariesOf sampleArtifactDup.linkReferences)) []
      = .ok [("File1.sol:Lib", ⟨"File1.sol", "Lib", sampleAddrA⟩)]) ∧
    (isAddress sampleAddrB = true) ∧
    ((neededLibrariesOf sampleArtifactDup.linkReferences).filter
      (fun l => l.2 == "File1.sol:Lib" || fqn l.1 l.2 == "File1.sol:Lib")
      = [("File1.sol", "Lib")]) ∧
    (fqn "File1.sol" "Lib"
      ∈ [("File1.sol:Lib", (⟨"File1.sol", "Lib", sampleAddrA⟩ : Link))].map Prod.fst) ∧
    collectLibrariesAndLink sampleArtifactDup
        ([("Lib", sampleAddrA)] ++ ("File1.sol:Lib", sampleAddrB) :: [])
      = .error (.duplicateLinkEntry "Lib" (fqn "File1.sol" "Lib")) :=
  ⟨by rfl, by decide, by decide, by decide,
    collectLibrariesAndLink_duplicate sampleArtifactDup
      [("Lib", sampleAddrA)] [] ("File1.sol:Lib", sampleAddrB)
      [("File1.sol:Lib", ⟨"File1.sol", "Lib", sampleAddrA⟩)] ("File1.sol", "Lib")
      (by rfl) (by decide) (by decide) (by decide)⟩

/-- C5.  A binding reached during linking whose address is not syntactically
valid makes linking fail with the invalid-address error, with no condition
on whether its identifier matches any needed library. -/
theorem collectLibrariesAndLink_invalidAddress (artifact : Artifact)
    (pre post : List (String × List Char)) (binding : String × List Char)
    (linksToApply : List (String × Link))
    (hfold : pre.foldlM
      (resolveBinding artifact.contractName (neededLibrariesOf artifact.linkReferences))
      [] = .ok linksToApply)
    (haddr : isAddress binding.2 = false) :
    collectLibrariesAndLink artifact (pre ++ binding :: post)
      = .error (.invalidAddress artifact.contractName binding.1 binding.2) := by
  have hstep : resolveBinding artifact.contractName
      (neededLibrariesOf artifact.linkReferences) linksToApply binding
      = .error (.invalidAddress artifact.contractName binding.1 binding.2) := by
    unfold resolveBinding
    rw [if_pos haddr]
  exact collect_error_of_fold_error artifact _ _
    (foldlM_resolve_reaches _ _ pre post binding linksToApply _ hfold hstep)

/-- Witness for C5: the value not-an-address is rejected even though the
artifact needs no library named Lib at all. -/
theorem collectLibrariesAndLink_invalidAddress_witness :
    (([] : List (String × List Char)).foldlM
      (resolveBinding sampleEmptyArtifact.contractName
        (neededLibrariesOf sampleEmptyArtifact.linkReferences)) []
      = .ok []) ∧
    (isAddress ("not-an-address".toList) = false) ∧
    collectLibrariesAndLink sampleEmptyArtifact
        ([] ++ ("Lib", "not-an-address".toList) :: [])
      = .error (.invalidAddress sampleEmptyArtifact.contractName "Lib"
        ("not-an-address".toList)) :=
  ⟨by rfl, by decide,
    collectLibrariesAndLink_invalidAddress sampleEmptyArtifact [] []
      ("Lib", "not-an-address".toList) [] (by rfl) (by decide)⟩

lemma resolveBinding_ok_inv (cn : String) (needed : List (String × String))
    (links links1 : List (String × Link)) (b : String × List Char)
    (h : resolveBinding cn needed links b = .ok links1) :
    ∃ lib, lib ∈ needed ∧
      (∀ p ∈ links, p.1 ≠ fqn lib.1 lib.2) ∧
      links1 = links ++ [(fqn lib.1 lib.2, ⟨lib.1, lib.2, b.2⟩)] := by
  unfold resolveBinding at h
  split at h
  · simp at h
  · split at h
    · simp at h
    · rename_i neededLibrary hf
      split at h
      · simp at h
      · rename_i hnotany
        have hmem : neededLibrary ∈ needed := by
          have hm : neededLibrary ∈ needed.filter
              (fun lib => lib.2 == b.1 || fqn lib.1 lib.2 == b.1) := by
            rw [hf]
            exact List.mem_singleton.mpr rfl
          exact List.mem_of_mem_filter hm
        refine ⟨neededLibrary, hmem, ?_, ?_⟩
        · intro p hp hpe
          apply hnotany
          rw [List.any_eq_true]
          exact ⟨p, hp, beq_iff_eq.mpr hpe⟩
        · injection h with h2
          exact h2.symm
    · simp at h

lemma foldResolve_inv (cn : String) (needed : List (String × String))
    (bindings : List (String × List Char)) :
    ∀ (links0 links : List (String × Link)),
    bindings.foldlM (resolveBinding cn needed) links0 = .ok links →
    (links0.map Prod.fst).Nodup →
    (∀ k ∈ links0.map Prod.fst, k ∈ needed.map (fun lib => fqn lib.1 lib.2)) →
    (links.map Prod.fst).Nodup ∧
      ∀ k ∈ links.map Prod.fst, k ∈ needed.map (fun lib => fqn lib.1 lib.2) := by
  induction bindings with
  | nil =>
    intro links0 links h hnd hsub
    rw [List.foldlM_nil] at h
    simp only [pure, Except.pure, Except.ok.injEq] at h
    subst h
    exact ⟨hnd, hsub⟩
  | cons b rest ih =>
    intro links0 links h hnd hsub
    rw [List.foldlM_cons] at h
    cases hr : resolveBinding cn needed links0 b with
    | error e =>
      rw [hr, exceptError_bind] at h
      simp at h
    | ok links1 =>
      rw [hr, exceptOk_bind] at h
      obtain ⟨lib, hlib, hnot, rfl⟩ := resolveBinding_ok_inv cn needed links0 links1 b hr
      apply ih _ links h
      · rw [List.map_append]
        apply List.Nodup.append hnd (List.nodup_singleton _)
        intro x hx1 hx2
        rw [List.mem_singleton] at hx2
        subst hx2
        obtain ⟨p, hp, hpe⟩ := List.mem_map.mp hx1
        exact hnot p hp hpe
      · intro k hk
        rw [List.map_append] at hk
        rcases List.mem_append.mp hk with hk | hk
        · exact hsub k hk
        · rw [List.map_singleton, List.mem_singleton] at hk
          subst hk
          exact List.mem_map.mpr ⟨lib, hlib, rfl⟩

lemma fst_mem_of_mem_neededLibrariesOf {m : LinkRefs} {x : String × String}
    (h : x ∈ neededLibrariesOf m) : x.1 ∈ m.map Prod.fst := by
  unfold neededLibrariesOf at h
  obtain ⟨entry, he, hx⟩ := List.mem_flatMap.mp h
  obtain ⟨inner, hi, rfl⟩ := List.mem_map.mp hx
  exact List.mem_map.mpr ⟨entry, he, rfl⟩

lemma neededLibrariesOf_nodup : ∀ m : LinkRefs, WFLinkRefs m → (neededLibrariesOf m).Nodup := by
  intro m
  induction m with
  | nil =>
    intro _
    simp [neededLibrariesOf]
  | cons entry rest ih =>
    intro hwf
    obtain ⟨h1, h2⟩ := hwf
    rw [List.map_cons, List.nodup_cons] at h1
    have hwfrest : WFLinkRefs rest :=
      ⟨h1.2, fun e he => h2 e (List.mem_cons_of_mem entry he)⟩
    have hexp : neededLibrariesOf (entry :: rest)
        = entry.2.map (fun inner => (entry.1, inner.1)) ++ neededLibrariesOf rest := by
      simp [neededLibrariesOf]
    rw [hexp]
    apply List.Nodup.append
    · have hmm : entry.2.map (fun inner => (entry.1, inner.1))
          = (entry.2.map Prod.fst).map (fun k => (entry.1, k)) := by
        rw [List.map_map]
        rfl
      rw [hmm]
      apply List.Nodup.map
      · intro a b hab
        simpa using hab
      · exact h2 entry (List.mem_cons_self _ _)
    · exact ih hwfrest
    · intro x hx1 hx2
      obtain ⟨inner, hi, rfl⟩ := List.mem_map.mp hx1
      exact h1.1 (fst_mem_of_mem_neededLibrariesOf hx2)

/-- C6.  Whenever linking succeeds, the resolved-link map pairs every needed
library with exactly one link: its keys are distinct, their number equals
the number of declared (sourceName, libraryName) pairs (themselves distinct
by object-key uniqueness), and the fully qualified name of every needed
pair is a key. -/
theorem collectLibrariesAndLink_ok_resolvesAll (artifact : Artifact)
    (libraries : List (String × List Char)) (out : List Char)
    (hwf : WFLinkRefs artifact.linkReferences)
    (hok : collectLibrariesAndLink artifact libraries = .ok out) :
    ∃ linksToApply,
      libraries.foldlM
        (resolveBinding artifact.contractName (neededLibrariesOf artifact.linkReferences))
        [] = .ok linksToApply ∧
      (linksToApply.map Prod.fst).Nodup ∧
      (neededLibrariesOf artifact.linkReferences).Nodup ∧
      linksToApply.length = (neededLibrariesOf artifact.linkReferences).length ∧
      ∀ lib ∈ neededLibrariesOf artifact.linkReferences,
        fqn lib.1 lib.2 ∈ linksToApply.map Prod.fst := by
  unfold collectLibrariesAndLink at hok
  split at hok
  · simp at hok
  · rename_i links hfold
    by_cases hlt : links.length < (neededLibrariesOf artifact.linkReferences).length
    · rw [if_pos hlt] at hok
      simp at hok
    · obtain ⟨hnd, hsub⟩ := foldResolve_inv artifact.contractName
        (neededLibrariesOf artifact.linkReferences) libraries [] links hfold
        (by simp) (by simp)
      have hneedednd : (neededLibrariesOf artifact.linkReferences).Nodup :=
        neededLibrariesOf_nodup _ hwf
      have hsub' : links.map Prod.fst
          ⊆ (neededLibrariesOf artifact.linkReferences).map (fun lib => fqn lib.1 lib.2) :=
        fun k hk => hsub k hk
      have hsp := List.subperm_of_subset hnd hsub'
      have hle := hsp.length_le
      rw [List.length_map, List.length_map] at hle
      have hlen2 : links.length = (neededLibrariesOf artifact.linkReferences).length := by
        omega
      have hperm : (links.map Prod.fst).Perm
          ((neededLibrariesOf artifact.linkReferences).map (fun lib => fqn lib.1 lib.2)) := by
        apply hsp.perm_of_length_le
        rw [List.length_map, List.length_map]
        omega
      refine ⟨links, hfold, hnd, hneedednd, hlen2, ?_⟩
      intro lib hlib
      exact hperm.mem_iff.mpr (List.mem_map.mpr ⟨lib, hlib, rfl⟩)

/-- Witness for C6: linking sampleArtifactAB with both A and B bound
succeeds and both s.sol:A and s.sol:B are resolved exactly once. -/
theorem collectLibrariesAndLink_ok_resolvesAll_witness :
    WFLinkRefs sampleArtifactAB.linkReferences ∧
    collectLibrariesAndLink sampleArtifactAB [("A", sampleAddrA), ("B", sampleAddrB)]
      = .ok sampleLinkedAB ∧
    (∃ linksToApply,
      [("A", sampleAddrA), ("B", sampleAddrB)].foldlM
        (resolveBinding sampleArtifactAB.contractName
          (neededLibrariesOf sampleArtifactAB.linkReferences))
        [] = .ok linksToApply ∧
      (linksToApply.map Prod.fst).Nodup ∧
      (neededLibrariesOf sampleArtifactAB.linkReferences).Nodup ∧
      linksToApply.length = (neededLibrariesOf sampleArtifactAB.linkReferences).length ∧
      ∀ lib ∈ neededLibrariesOf sampleArtifactAB.linkReferences,
        fqn lib.1 lib.2 ∈ linksToApply.map Prod.fst) :=
  ⟨by decide, by rfl,
    collectLibrariesAndLink_ok_resolvesAll sampleArtifactAB
      [("A", sampleAddrA), ("B", sampleAddrB)] sampleLinkedAB (by decide) (by rfl)⟩

lemma foldl_push_eq_map {α β : Type} (g : α → β) (l : List α) :
    ∀ acc : List β, l.foldl (fun acc x => acc ++ [g x]) acc = acc ++ l.map g := by
  induction l with
  | nil =>
    intro acc
    simp
  | cons x t ih =>
    intro acc
    simp [ih]

/-- C8.  With gas auto or undefined the gas pass returns the ABI itself;
with a fixed amount (at least the 1000000 safety margin, below which the
external hex rendering raises) it returns a same-length ABI where every
function entry carries gas toHexString(amount - 1000000) and every other
entry is returned unmodified. -/
theorem addGasToAbiMethodsIfNecessary_spec (abi : List AbiEntry) (amount : Nat)
    (hamount : 1000000 ≤ amount) :
    addGasToAbiMethodsIfNecessary .auto abi = some abi ∧
    addGasToAbiMethodsIfNecessary .undef abi = some abi ∧
    ∃ out, addGasToAbiMethodsIfNecessary (.fixed amount) abi = some out ∧
      out.length = abi.length ∧
      ∀ (i : Nat) (e : AbiEntry), abi[i]? = some e →
        (e.type = "function" →
          out[i]? = some { e with gas := some (toHexString (amount - 1000000)) }) ∧
        (e.type ≠ "function" → out[i]? = some e) := by
  refine ⟨rfl, rfl, ?_⟩
  have hgas : bigNumberSubToHexString amount 1000000
      = some (toHexString (amount - 1000000)) := by
    unfold bigNumberSubToHexString
    rw [if_neg (by omega)]
  refine ⟨abi.map (fun e => if e.type != "function" then e
      else { e with gas := some (toHexString (amount - 1000000)) }), ?_, by simp, ?_⟩
  · simp only [addGasToAbiMethodsIfNecessary]
    rw [hgas]
    simp only [Option.map_some']
    congr 1
    have hfn : (fun (modifiedAbi : List AbiEntry) (abiElement : AbiEntry) =>
        if abiElement.type != "function" then modifiedAbi ++ [abiElement]
        else modifiedAbi ++ [{ abiElement with gas := some (toHexString (amount - 1000000)) }])
        = (fun acc e => acc ++ [if e.type != "function" then e
            else { e with gas := some (toHexString (amount - 1000000)) }]) := by
      funext acc e
      by_cases hc : (e.type != "function") = true
      · simp [hc]
      · simp [hc]
    rw [hfn, foldl_push_eq_map]
    simp
  · intro i e he
    constructor
    · intro htype
      rw [List.getElem?_map, he]
      simp [htype]
    · intro htype
      rw [List.getElem?_map, he]
      simp [htype]

/-- Witness for C8 at network gas 8000000 on sampleAbi. -/
theorem addGasToAbiMethodsIfNecessary_spec_witness :
    1000000 ≤ 8000000 ∧
    (addGasToAbiMethodsIfNecessary .auto sampleAbi = some sampleAbi ∧
    addGasToAbiMethodsIfNecessary .undef sampleAbi = some sampleAbi ∧
    ∃ out, addGasToAbiMethodsIfNecessary (.fixed 8000000) sampleAbi = some out ∧
      out.length = sampleAbi.length ∧
      ∀ (i : Nat) (e : AbiEntry), sampleAbi[i]? = some e →
        (e.type = "function" →
          out[i]? = some { e with gas := some (toHexString (8000000 - 1000000)) }) ∧
        (e.type ≠ "function" → out[i]? = some e)) :=
  ⟨by omega, addGasToAbiMethodsIfNecessary_spec sampleAbi 8000000 (by omega)⟩

/-- C9 counterexample: a factory request through the ABI-and-bytecode entry
point with bytecode exactly 0x succeeds instead of failing, so the
abstract-contract rejection does not cover every factory construction. -/
theorem getContractFactoryByAbiAndBytecode_accepts0x :
    getContractFactoryByAbiAndBytecode .auto sampleAbi ['0', 'x']
      = .ok ⟨sampleAbi, ['0', 'x']⟩ := rfl

/-- C9 amended: the by-name factory path rejects an artifact whose bytecode
is exactly 0x with the abstract-contract error; the ABI-and-bytecode path
performs no such check. -/
theorem getContractFactoryByName_abstract (networkConfigGas : GasSetting)
    (artifact : Artifact) (libraries : List (String × List Char))
    (h : artifact.bytecode = ['0', 'x']) :
    getContractFactoryByName networkConfigGas artifact libraries
      = .error (.abstractContract artifact.contractName) := by
  unfold getContractFactoryByName
  rw [if_pos h]

/-- Witness for the amended C9. -/
theorem getContractFactoryByName_abstract_witness :
    sampleAbstractArtifact.bytecode = ['0', 'x'] ∧
    getContractFactoryByName .auto sampleAbstractArtifact []
      = .error (.abstractContract sampleAbstractArtifact.contractName) :=
  ⟨rfl, getContractFactoryByName_abstract .auto sampleAbstractArtifact [] rfl⟩

/-- C10.  With the deployment plugin present, a name absent from the
named-account registry (or bound to a falsy address) raises the
no-account-named error rather than returning null, and a null result occurs
only when the name has a non-empty address for which the external signer
construction produces nothing. -/
theorem getNamedSignerOrNull_spec (namedAccounts : List (String × String))
    (getSignerFor : String → Option SignerWithAddress) (name : String) :
    (lookupEntry namedAccounts name = none →
      getNamedSignerOrNull (some namedAccounts) getSignerFor name
        = .error (.noAccountNamed name)) ∧
    (getNamedSignerOrNull (some namedAccounts) getSignerFor name = .ok none →
      ∃ address, lookupEntry namedAccounts name = some address ∧ address ≠ "" ∧
        getSignerFor address = none) := by
  constructor
  · intro h
    simp only [getNamedSignerOrNull]
    rw [h]
  · intro h
    cases hl : lookupEntry namedAccounts name with
    | none =>
      exfalso
      have heq : getNamedSignerOrNull (some namedAccounts) getSignerFor name
          = .error (.noAccountNamed name) := by
        simp only [getNamedSignerOrNull]
        rw [hl]
      rw [heq] at h
      simp at h
    | some address =>
      by_cases he : address = ""
      · exfalso
        have heq : getNamedSignerOrNull (some namedAccounts) getSignerFor name
            = .error (.noAccountNamed name) := by
          simp [getNamedSignerOrNull, hl, he]
        rw [heq] at h
        simp at h
      · cases hs : getSignerFor address with
        | some s =>
          exfalso
          have heq : getNamedSignerOrNull (some namedAccounts) getSignerFor name
              = .ok (some s) := by
            simp [getNamedSignerOrNull, hl, he, hs]
          rw [heq] at h
          simp at h
        | none =>
          exact ⟨address, rfl, he, hs⟩

/-- Witness for C10: a missing name raises, and a null return happens with
an address present but no signer produced. -/
theorem getNamedSignerOrNull_spec_witness :
    (lookupEntry ([] : List (String × String)) "deployer" = none ∧
      getNamedSignerOrNull (some []) (fun _ => none) "deployer"
        = .error (.noAccountNamed "deployer")) ∧
    (getNamedSignerOrNull (some [("deployer", "0xabc")])
        (fun _ => (none : Option SignerWithAddress)) "deployer" = .ok none ∧
      ∃ address, lookupEntry [("deployer", "0xabc")] "deployer" = some address ∧
        address ≠ "" ∧
        (fun _ : String => (none : Option SignerWithAddress)) address = none) :=
  ⟨⟨rfl, (getNamedSignerOrNull_spec [] (fun _ => none) "deployer").1 rfl⟩,
    ⟨rfl, (getNamedSignerOrNull_spec [("deployer", "0xabc")]
      (fun _ => none) "deployer").2 rfl⟩⟩
